import Mathlib

/-!
Verification of the `ge` graph-editor core: a shallow embedding in Lean 4 of
the geometry and gesture components (path-anchor resolver, edge routers,
shape-anchor resolver, port positioning, graph edge registry, and the
interactive connection plugin), with theorems checking the natural-language
specification against this embedding.

Numbers are modelled as real numbers; JavaScript's `a ?? b` is `Option.getD`
and `a || b` (on numbers) is `jsOr` below.  Code that catches every exception
internally and returns a fallback is modelled as a total function returning
that fallback; code that throws is modelled with `Except`.
-/

namespace GE

/-- 2D point / vector, as in `export type Vec2 = [number, number]`. -/
abbrev Vec2 : Type := ℝ × ℝ

/-- JavaScript `v || d` for numeric `v` that may be absent: `undefined` and
`0` are falsy, every other number is kept. -/
noncomputable def jsOr (o : Option ℝ) (d : ℝ) : ℝ :=
  match o with
  | some v => if v = 0 then d else v
  | none => d

/-! ## Path-anchor resolver (`computeAnchor`, src/packages/ge-core edgeLayout) -/

/-- `snap?: 'start' | 'middle' | 'end'`. -/
inductive Snap where
  | start
  | middle
  | «end»
deriving DecidableEq

/-- `EdgeLayoutOffset { along?, normal? }`. -/
structure EdgeLayoutOffset where
  along : Option ℝ
  normal : Option ℝ

/-- `EdgeLayoutOptions { t?, snap?, segmentIndex?, offset? }`. -/
structure EdgeLayoutOptions where
  t : Option ℝ
  snap : Option Snap
  segmentIndex : Option ℤ
  offset : Option EdgeLayoutOffset

/-- `EdgeAnchor { x, y, tangent, normal }`. -/
structure EdgeAnchor where
  x : ℝ
  y : ℝ
  tangent : Vec2
  normal : Vec2


/-- One entry of the `segs` array built by `computeAnchor`. -/
structure Seg where
  a : Vec2
  b : Vec2
  len : ℝ
  dir : Vec2


/-- One loop iteration of the segment construction:
`len = hypot(dx, dy); dir = len > 0 ? [dx/len, dy/len] : [1, 0]`. -/
noncomputable def mkSeg (p q : Vec2) : Seg :=
  let dx := q.1 - p.1
  let dy := q.2 - p.2
  let len := Real.sqrt (dx ^ 2 + dy ^ 2)
  ⟨p, q, len, if 0 < len then (dx / len, dy / len) else (1, 0)⟩

/-- The `segs` array: one `Seg` per adjacent pair of path points. -/
noncomputable def mkSegs : List Vec2 → List Seg
  | p :: q :: rest => mkSeg p q :: mkSegs (q :: rest)
  | _ => []

/-- The running `total` accumulated alongside the `segs` array. -/
noncomputable def segsTotal (segs : List Seg) : ℝ :=
  (segs.map Seg.len).sum

/-- `t` resolution: clamp a given `t` to `[0,1]`, otherwise map the snap
(`start → 0`, `end → 1`, anything else → `0.5`). -/
noncomputable def resolveT (opts : EdgeLayoutOptions) : ℝ :=
  match opts.t with
  | some v => min 1 (max 0 v)
  | none =>
    match opts.snap with
    | some Snap.start => 0
    | some Snap.«end» => 1
    | _ => 0.5

/-- The segment-walking loop of `computeAnchor`: starting from accumulator
`acc` and index `i`, return the first index whose segment contains the target
arclength, with the length accumulated before it.  If the loop runs off the
end, `segIdx` keeps its initial value `0` and `acc` holds the full sum, as in
the source. -/
noncomputable def walkSegs : List Seg → ℝ → ℝ → ℕ → ℕ × ℝ
  | [], _, acc, _ => (0, acc)
  | s :: rest, targetLen, acc, i =>
    if targetLen ≤ acc + s.len then (i, acc)
    else walkSegs rest targetLen (acc + s.len) (i + 1)

/-- `Math.min(segs.length - 1, Math.max(0, segmentIndex))`. -/
def clampSegIdx (n : ℕ) (si : ℤ) : ℕ :=
  (min ((n : ℤ) - 1) (max 0 si)).toNat

/-- Placeholder segment used where the source indexes `segs` (the indices are
in range in the source whenever this value would matter; its `dir` matches the
`[1, 0]` fallback of the degenerate branch). -/
noncomputable def defaultSeg : Seg := ⟨(0, 0), (0, 0), 0, (1, 0)⟩

/-- Body of `computeAnchor` after the `t` resolution step: `tval` is the
resolved `t`.  Mirrors the source line by line: fallback to a two-point
degenerate path, segment construction, degenerate-total early return, target
arclength, forced-segment or walking index selection, local interpolation,
and tangential/normal offset application. -/
noncomputable def computeAnchorCore (points : List Vec2) (tval : ℝ)
    (segmentIndex : Option ℤ) (offset : Option EdgeLayoutOffset) : EdgeAnchor :=
  let pts := if 2 ≤ points.length then points else [(0, 0), (0, 0)]
  let segs := mkSegs pts
  let total := segsTotal segs
  if total = 0 then
    let d := (segs.headD defaultSeg).dir
    ⟨(pts.headD (0, 0)).1, (pts.headD (0, 0)).2, d, (-d.2, d.1)⟩
  else
    let targetLen := tval * total
    let ia :=
      match segmentIndex with
      | some si =>
        (clampSegIdx segs.length si,
         ((segs.take (clampSegIdx segs.length si)).map Seg.len).sum)
      | none => walkSegs segs targetLen 0 0
    let seg := segs.getD ia.1 defaultSeg
    let loc := if 0 < seg.len then (targetLen - ia.2) / seg.len else 0
    let x := seg.a.1 + (seg.b.1 - seg.a.1) * loc
    let y := seg.a.2 + (seg.b.2 - seg.a.2) * loc
    let along := match offset with | some o => o.along.getD 0 | none => 0
    let nrm := match offset with | some o => o.normal.getD 0 | none => 0
    ⟨x + seg.dir.1 * along + (-seg.dir.2) * nrm,
     y + seg.dir.2 * along + seg.dir.1 * nrm,
     seg.dir, (-seg.dir.2, seg.dir.1)⟩

/-- `computeAnchor(points, opts)`. -/
noncomputable def computeAnchor (points : List Vec2) (opts : EdgeLayoutOptions) : EdgeAnchor :=
  computeAnchorCore points (resolveT opts) opts.segmentIndex opts.offset

/-- Index of the forced segment selected by a `segmentIndex` address. -/
noncomputable def forcedIdx (points : List Vec2) (si : ℤ) : ℕ :=
  clampSegIdx (mkSegs points).length si

/-- The forced segment itself. -/
noncomputable def forcedSeg (points : List Vec2) (si : ℤ) : Seg :=
  (mkSegs points).getD (forcedIdx points si) defaultSeg

/-- Total length of the segments preceding the forced segment. -/
noncomputable def lenBefore (points : List Vec2) (si : ℤ) : ℝ :=
  (((mkSegs points).take (forcedIdx points si)).map Seg.len).sum

/-! ## Edge routers (src/packages/ge-core/src/core/edge/EdgeRouter.ts) -/

/-- `NormalRouter.route`: thread explicit waypoints, otherwise return the
endpoint array unchanged. -/
def NormalRouter.route (points : List Vec2) (vertices : Option (List Vec2)) : List Vec2 :=
  match vertices with
  | some vs =>
    if 0 < vs.length then points.getD 0 (0, 0) :: vs ++ [points.getD 1 (0, 0)]
    else points
  | none => points

/-- `OrthogonalRouter.route`: thread waypoints, otherwise insert two bends at
the horizontal midpoint. -/
noncomputable def OrthogonalRouter.route (points : List Vec2) (vertices : Option (List Vec2)) : List Vec2 :=
  match vertices with
  | some vs =>
    if 0 < vs.length then points.getD 0 (0, 0) :: vs ++ [points.getD 1 (0, 0)]
    else
      let s := points.getD 0 (0, 0)
      let e := points.getD (points.length - 1) (0, 0)
      let midX := (s.1 + e.1) / 2
      [s, (midX, s.2), (midX, e.2), e]
  | none =>
    let s := points.getD 0 (0, 0)
    let e := points.getD (points.length - 1) (0, 0)
    let midX := (s.1 + e.1) / 2
    [s, (midX, s.2), (midX, e.2), e]

/-- Constructor options of `ManhattanRouter` (`{ step: 10, ...options }`). -/
structure ManhattanOptions where
  step : Option ℝ

/-- `ManhattanRouter.route`: like the orthogonal router but the bend
x-coordinate is rounded to the nearest multiple of `step`
(`this.options.step || 10`). -/
noncomputable def ManhattanRouter.route (options : ManhattanOptions)
    (points : List Vec2) (vertices : Option (List Vec2)) : List Vec2 :=
  match vertices with
  | some vs =>
    if 0 < vs.length then points.getD 0 (0, 0) :: vs ++ [points.getD 1 (0, 0)]
    else
      let s := points.getD 0 (0, 0)
      let e := points.getD (points.length - 1) (0, 0)
      let step := jsOr options.step 10
      let midX := ((round ((s.1 + e.1) / 2 / step) : ℤ) : ℝ) * step
      [s, (midX, s.2), (midX, e.2), e]
  | none =>
    let s := points.getD 0 (0, 0)
    let e := points.getD (points.length - 1) (0, 0)
    let step := jsOr options.step 10
    let midX := ((round ((s.1 + e.1) / 2 / step) : ℤ) : ℝ) * step
    [s, (midX, s.2), (midX, e.2), e]

/-! ## Shape-anchor resolver (`computeAnchorForShape`, src/packages/ge-core nodeAnchor) -/

/-- A preset side name (`'top' | 'bottom' | 'left' | 'right'`). -/
inductive PresetSide where
  | top
  | bottom
  | left
  | right
deriving DecidableEq

/-- `PortLayoutAny`: a preset string, an angle record, or an absolute record. -/
inductive PortLayoutAny where
  | preset (side : PresetSide)
  | angle (angle : ℝ)
  | absolute (x y : ℝ)

/-- The `nodeStyle` fallback record threaded into the resolver. -/
structure NodeStyleNS where
  width : Option ℝ
  height : Option ℝ
  r : Option ℝ
  rx : Option ℝ
  ry : Option ℝ

/-- Empty node style (all fields absent). -/
def nsEmpty : NodeStyleNS := ⟨none, none, none, none, none⟩

/-- `style` of a `rect` shape (each field may be absent). -/
structure RectStyle where
  x : Option ℝ
  y : Option ℝ
  width : Option ℝ
  height : Option ℝ

/-- `style` of a `circle` shape. -/
structure CircleStyle where
  cx : Option ℝ
  cy : Option ℝ
  r : Option ℝ

/-- `style` of an `ellipse` shape (`r` is the `style.r` fallback used for `rx`). -/
structure EllipseStyle where
  cx : Option ℝ
  cy : Option ℝ
  rx : Option ℝ
  r : Option ℝ
  ry : Option ℝ

/-- Result of `getLocalBounds()` (`bounds.min`/`bounds.max`). -/
structure GBounds where
  min : Vec2
  max : Vec2

/-- The shape descriptor the resolver dispatches on via `shape.nodeName`.
`polygon` covers both `polygon` and `polyline` (their numeric point lists);
`other` is any unknown kind, carrying the `getLocalBounds()` result when that
call exists and does not throw. -/
inductive ShapeDesc where
  | rect (style : RectStyle)
  | circle (style : CircleStyle)
  | ellipse (style : EllipseStyle)
  | polygon (points : List Vec2)
  | other (localBounds : Option GBounds)

/-- Bounding box record of `bboxOfPoints`. -/
structure GBBox where
  minX : ℝ
  minY : ℝ
  maxX : ℝ
  maxY : ℝ

/-- `bboxOfPoints(points)`: running min/max over the point list; all-zero for
an empty list. -/
noncomputable def bboxOfPoints (points : List Vec2) : GBBox :=
  match points with
  | [] => ⟨0, 0, 0, 0⟩
  | p :: rest =>
    rest.foldl
      (fun bb q => ⟨min bb.minX q.1, min bb.minY q.2, max bb.maxX q.1, max bb.maxY q.2⟩)
      ⟨p.1, p.2, p.1, p.2⟩

/-- `intersectRaySegment(cx, cy, dx, dy, a, b)`: `some (x, y, v)` when the ray
from `(cx, cy)` along `(dx, dy)` crosses segment `a`-`b` at ray parameter
`v ≥ 0` and segment parameter `u ∈ [0,1]`; `none` when near-parallel or out of
range. -/
noncomputable def intersectRaySegment (cx cy dx dy : ℝ) (a b : Vec2) :
    Option (ℝ × ℝ × ℝ) :=
  let rx := b.1 - a.1
  let ry := b.2 - a.2
  let denom := rx * dy - ry * dx
  if |denom| < 1e-8 then none
  else
    let u := (dx * (a.2 - cy) - dy * (a.1 - cx)) / denom
    let v := (rx * (a.2 - cy) - ry * (a.1 - cx)) / denom
    if 0 ≤ u ∧ u ≤ 1 ∧ 0 ≤ v then some (a.1 + rx * u, a.2 + ry * u, v)
    else none

/-- The rect `angle` branch: the four half-line/edge candidates `(t, px, py)`,
each pushed under the same sign and span conditions as the source. -/
noncomputable def rectAngleCandidates (x y w h cx cy dx dy : ℝ) : List (ℝ × ℝ × ℝ) :=
  let left := x
  let right := x + w
  let top := y
  let bottom := y + h
  (if 0 < dx then
    let t := (right - cx) / dx
    let py := cy + dy * t
    if (top ≤ py ∧ py ≤ bottom) ∧ 0 < t then [(t, right, py)] else []
   else []) ++
  (if dx < 0 then
    let t := (left - cx) / dx
    let py := cy + dy * t
    if (top ≤ py ∧ py ≤ bottom) ∧ 0 < t then [(t, left, py)] else []
   else []) ++
  (if 0 < dy then
    let t := (bottom - cy) / dy
    let px := cx + dx * t
    if (left ≤ px ∧ px ≤ right) ∧ 0 < t then [(t, px, bottom)] else []
   else []) ++
  (if dy < 0 then
    let t := (top - cy) / dy
    let px := cx + dx * t
    if (left ≤ px ∧ px ≤ right) ∧ 0 < t then [(t, px, top)] else []
   else [])

/-- `candidates.sort((a,b)=>a.t-b.t); candidates[0]`: the earliest candidate
with minimal `t` (the sort is stable). -/
noncomputable def minByT : List (ℝ × ℝ × ℝ) → Option (ℝ × ℝ × ℝ)
  | [] => none
  | c :: rest =>
    some (rest.foldl (fun best cand => if cand.1 < best.1 then cand else best) c)

/-- The polygon `angle` loop: intersect the ray with every edge (wrapping the
point list) and keep the hit with the smallest ray parameter `v`. -/
noncomputable def polygonAngleBest (points : List Vec2) (cx cy dx dy : ℝ) :
    Option (ℝ × ℝ × ℝ) :=
  (List.range points.length).foldl
    (fun best i =>
      let a := points.getD i (0, 0)
      let b := points.getD ((i + 1) % points.length) (0, 0)
      match intersectRaySegment cx cy dx dy a b with
      | some hit =>
        match best with
        | none => some hit
        | some bh => if hit.2.2 < bh.2.2 then some hit else some bh
      | none => best)
    none

/-- `computeAnchorForShape(shape, layout?, nodeStyle?)`: pure geometry, never
throws; unknown kinds degrade to the local-bounds center or the
`nodeStyle`-derived default center. -/
noncomputable def computeAnchorForShape (shape : ShapeDesc)
    (layout : Option PortLayoutAny) (ns : NodeStyleNS) : Vec2 :=
  match shape with
  | ShapeDesc.rect st =>
    let x := st.x.getD 0
    let y := st.y.getD 0
    let w := st.width.getD (ns.width.getD 0)
    let h := st.height.getD (ns.height.getD 0)
    let cx := x + w / 2
    let cy := y + h / 2
    match layout with
    | none => (cx, cy)
    | some (PortLayoutAny.preset PresetSide.top) => (x + w / 2, y)
    | some (PortLayoutAny.preset PresetSide.bottom) => (x + w / 2, y + h)
    | some (PortLayoutAny.preset PresetSide.left) => (x, y + h / 2)
    | some (PortLayoutAny.preset PresetSide.right) => (x + w, y + h / 2)
    | some (PortLayoutAny.absolute ax ay) => (ax, ay)
    | some (PortLayoutAny.angle a) =>
      let ang := a * Real.pi / 180
      let dx := Real.cos ang
      let dy := Real.sin ang
      match minByT (rectAngleCandidates x y w h cx cy dx dy) with
      | some c => (c.2.1, c.2.2)
      | none => (cx, cy)
  | ShapeDesc.circle st =>
    let cx := st.cx.getD 0
    let cy := st.cy.getD 0
    let r := st.r.getD (ns.r.getD 0)
    match layout with
    | none => (cx, cy)
    | some (PortLayoutAny.preset PresetSide.top) => (cx, cy - r)
    | some (PortLayoutAny.preset PresetSide.bottom) => (cx, cy + r)
    | some (PortLayoutAny.preset PresetSide.left) => (cx - r, cy)
    | some (PortLayoutAny.preset PresetSide.right) => (cx + r, cy)
    | some (PortLayoutAny.absolute ax ay) => (ax, ay)
    | some (PortLayoutAny.angle a) =>
      let ang := a * Real.pi / 180
      (cx + r * Real.cos ang, cy + r * Real.sin ang)
  | ShapeDesc.ellipse st =>
    let cx := st.cx.getD 0
    let cy := st.cy.getD 0
    let rx := st.rx.getD (st.r.getD (ns.rx.getD (ns.r.getD 0)))
    let ry := st.ry.getD (ns.ry.getD 0)
    match layout with
    | none => (cx, cy)
    | some (PortLayoutAny.preset PresetSide.top) => (cx, cy - ry)
    | some (PortLayoutAny.preset PresetSide.bottom) => (cx, cy + ry)
    | some (PortLayoutAny.preset PresetSide.left) => (cx - rx, cy)
    | some (PortLayoutAny.preset PresetSide.right) => (cx + rx, cy)
    | some (PortLayoutAny.absolute ax ay) => (ax, ay)
    | some (PortLayoutAny.angle a) =>
      let ang := a * Real.pi / 180
      (cx + rx * Real.cos ang, cy + ry * Real.sin ang)
  | ShapeDesc.polygon points =>
    if points.length = 0 then (0, 0)
    else
      let bb := bboxOfPoints points
      let cx := (bb.minX + bb.maxX) / 2
      let cy := (bb.minY + bb.maxY) / 2
      match layout with
      | none => (cx, cy)
      | some (PortLayoutAny.preset PresetSide.top) => (cx, bb.minY)
      | some (PortLayoutAny.preset PresetSide.bottom) => (cx, bb.maxY)
      | some (PortLayoutAny.preset PresetSide.left) => (bb.minX, cy)
      | some (PortLayoutAny.preset PresetSide.right) => (bb.maxX, cy)
      | some (PortLayoutAny.absolute ax ay) => (ax, ay)
      | some (PortLayoutAny.angle a) =>
        let ang := a * Real.pi / 180
        let dx := Real.cos ang
        let dy := Real.sin ang
        match polygonAngleBest points cx cy dx dy with
        | some best => (best.1, best.2.1)
        | none => (cx, cy)
  | ShapeDesc.other localBounds =>
    match localBounds with
    | some b => ((b.min.1 + b.max.1) / 2, (b.min.2 + b.max.2) / 2)
    | none => (jsOr ns.width 100 / 2, jsOr ns.height 40 / 2)

/-! ## Port positioning (src/packages/ge-core/src/core/Port.ts `updatePosition`) -/

/-- The position `Port.updatePosition` stores into its circle's `cx`/`cy`,
given the owner's primary shape and the port's layout.  (The source returns
early when the layout or owner is missing; this models the storing case.)
`pos` starts at `(0, 0)`; only rect-preset, circle-preset, circle-angle and
absolute layouts assign it. -/
noncomputable def Port.updatePosition (shape : ShapeDesc) (layout : PortLayoutAny) : Vec2 :=
  let pos : Vec2 :=
    match shape, layout with
    | ShapeDesc.rect st, PortLayoutAny.preset side =>
      let w := jsOr st.width 0
      let h := jsOr st.height 0
      let x := jsOr st.x 0
      let y := jsOr st.y 0
      match side with
      | PresetSide.top => (x + w / 2, y)
      | PresetSide.bottom => (x + w / 2, y + h)
      | PresetSide.left => (x, y + h / 2)
      | PresetSide.right => (x + w, y + h / 2)
    | ShapeDesc.circle st, PortLayoutAny.preset side =>
      let cx := jsOr st.cx 0
      let cy := jsOr st.cy 0
      let r := jsOr st.r 0
      match side with
      | PresetSide.top => (cx, cy - r)
      | PresetSide.bottom => (cx, cy + r)
      | PresetSide.left => (cx - r, cy)
      | PresetSide.right => (cx + r, cy)
    | ShapeDesc.circle st, PortLayoutAny.angle a =>
      let cx := jsOr st.cx 0
      let cy := jsOr st.cy 0
      let r := jsOr st.r 0
      let angleRad := a * Real.pi / 180
      (cx + r * Real.cos angleRad, cy + r * Real.sin angleRad)
    | _, _ => (0, 0)
  match layout with
  | PortLayoutAny.absolute ax ay => (ax, ay)
  | _ => pos

/-! ## Graph registry and `addEdge` (src/packages/ge-core/src/core/Graph.ts) -/

/-- An element in the graph's document: a node or an edge, by id. -/
inductive GElem where
  | nodeEl (id : String)
  | edgeEl (id : String) (source target : String)
deriving DecidableEq

/-- Id of an element. -/
def GElem.elemId : GElem → String
  | GElem.nodeEl i => i
  | GElem.edgeEl i _ _ => i

/-- The graph state the registry methods act on: the node and edge registries
plus the document's element children. -/
structure GraphRec where
  nodesById : List (String × String)
  edgesById : List (String × GElem)
  children : List GElem

/-- `document.getElementById`: first child with the given id. -/
def GraphRec.getElementById (g : GraphRec) (id : String) : Option GElem :=
  g.children.find? (fun e => e.elemId = id)

/-- `getNodeById`: the registry entry when present, otherwise the document
lookup (which may return any element with that id). -/
def GraphRec.getNodeById (g : GraphRec) (id : String) : Option GElem :=
  match g.nodesById.lookup id with
  | some n => some (GElem.nodeEl n)
  | none => g.getElementById id

/-- `appendChild` with the registration heuristic: edges are added to the
edge registry, nodes to the node registry. -/
def GraphRec.appendChild (g : GraphRec) (e : GElem) : GraphRec :=
  match e with
  | GElem.nodeEl i => ⟨g.nodesById ++ [(i, i)], g.edgesById, g.children ++ [e]⟩
  | GElem.edgeEl i _ _ => ⟨g.nodesById, g.edgesById ++ [(i, e)], g.children ++ [e]⟩

/-- Data passed to `addEdge`. -/
structure EdgeData where
  id : String
  source : String
  target : String

/-- `Graph.addEdge(edgeData)`: verify both endpoints resolve, then construct
and append the edge; otherwise throw `'Source or target node does not
exist'`. -/
def Graph.addEdge (g : GraphRec) (d : EdgeData) : Except String (GraphRec × GElem) :=
  match g.getNodeById d.source, g.getNodeById d.target with
  | some _, some _ =>
    let e := GElem.edgeEl d.id d.source d.target
    Except.ok (g.appendChild e, e)
  | _, _ => Except.error "Source or target node does not exist"

/-! ## Interactive connection plugin (src/unnamed/part_000, ConnectionPlugin) -/

/-- An endpoint (node or port) is abstracted to an id. -/
abbrev Endpoint : Type := ℕ

/-- An edge child of the diagram: the temporary rubber-band edge from a start
endpoint to the virtual endpoint, or a permanent edge. -/
inductive DEdge where
  | temp (src : Endpoint)
  | perm (src tgt : Endpoint)
deriving DecidableEq

/-- The plugin's mutable fields plus the part of the diagram it touches.
`graphAttached` is whether `this.graph` is non-null; `edges` are the
diagram's edge children keyed by identity tokens; `nextId` supplies fresh
tokens. -/
structure PState where
  graphAttached : Bool
  edges : List (ℕ × DEdge)
  nextId : ℕ
  startEndpoint : Option Endpoint
  virtualTarget : Option Vec2
  tempEdge : Option ℕ
  startPos : Option Vec2

/-- `cleanupTemp`: remove the temporary edge from the diagram (when both it
and the graph exist) and null out every transient gesture field. -/
def cleanupTemp (s : PState) : PState :=
  let edges :=
    match s.tempEdge with
    | some tid => if s.graphAttached then s.edges.filter (fun p => p.1 ≠ tid) else s.edges
    | none => s.edges
  ⟨s.graphAttached, edges, s.nextId, none, none, none, none⟩

/-- The gesture-starting body shared by the synchronous branch of
`_onPointerDown` and its asynchronous `.then` continuation: set the start
endpoint, create the virtual endpoint at the start position, create the
temporary edge and append it to the graph when one is attached. -/
def startGesture (pos : Endpoint → Vec2) (s : PState) (ep : Endpoint) : PState :=
  let p := pos ep
  let tid := s.nextId
  ⟨s.graphAttached,
   if s.graphAttached then s.edges ++ [(tid, DEdge.temp ep)] else s.edges,
   s.nextId + 1,
   some ep, some p, some tid, some p⟩

/-- `_onPointerDown`, synchronous pick result: a `null` pick does nothing,
otherwise the gesture starts. -/
def onPointerDownSync (pos : Endpoint → Vec2) (s : PState) (pick : Option Endpoint) : PState :=
  match pick with
  | none => s
  | some ep => startGesture pos s ep

/-- The `.then` continuation of an asynchronous `_onPointerDown` pick: the
source checks only `if (!endpoint) return` — there is no staleness check, so
a late resolution behaves exactly like a fresh synchronous pick. -/
def resolveDownPick (pos : Endpoint → Vec2) (s : PState) (res : Option Endpoint) : PState :=
  match res with
  | none => s
  | some ep => startGesture pos s ep

/-- Outcome of locating the end endpoint at pointer-up.  `errored` is an
exception inside `_pickEndpointFromEvent`; the source catches it internally
and returns `null`. -/
inductive PickOutcome where
  | found (ep : Endpoint)
  | notFound
  | errored
deriving DecidableEq

/-- What `_pickEndpointFromEvent` hands back to `_onPointerUp`. -/
def pickResult : PickOutcome → Option Endpoint
  | PickOutcome.found ep => some ep
  | PickOutcome.notFound => none
  | PickOutcome.errored => none

/-- `_onPointerUp` (the synchronous branch; the asynchronous `.then`
continuation performs the same steps with `cleanupTemp` in a
`finally`/`catch`): no start endpoint means the event is ignored; a missing
endpoint or a self-loop cancels; otherwise a permanent edge is created,
appended, connected — and the temporary state is cleaned up in every case. -/
def onPointerUp (s : PState) (outcome : PickOutcome) : PState :=
  match s.startEndpoint with
  | none => s
  | some se =>
    match pickResult outcome with
    | none => cleanupTemp s
    | some ep =>
      if ep = se then cleanupTemp s
      else
        let pid := s.nextId
        let s1 : PState :=
          ⟨s.graphAttached,
           if s.graphAttached then s.edges ++ [(pid, DEdge.perm se ep)] else s.edges,
           s.nextId + 1,
           s.startEndpoint, s.virtualTarget, s.tempEdge, s.startPos⟩
        cleanupTemp s1

/-- Number of permanent edges among the diagram's edge children. -/
def permCount (edges : List (ℕ × DEdge)) : ℕ :=
  (edges.filter (fun p => match p.2 with | DEdge.perm _ _ => true | _ => false)).length

/-! ## Basic lemmas -/

lemma jsOr_zero (o : Option ℝ) : jsOr o 0 = o.getD 0 := by
  cases o with
  | none => rfl
  | some v => by_cases h : v = 0 <;> simp [jsOr, h]

/-- Each constructed segment direction is a unit vector. -/
lemma mkSeg_dir_unit (p q : Vec2) :
    (mkSeg p q).dir.1 ^ 2 + (mkSeg p q).dir.2 ^ 2 = 1 := by
  simp only [mkSeg]
  by_cases h : 0 < Real.sqrt ((q.1 - p.1) ^ 2 + (q.2 - p.2) ^ 2)
  · rw [if_pos h]
    have harg : (0:ℝ) ≤ (q.1 - p.1) ^ 2 + (q.2 - p.2) ^ 2 := by positivity
    have hsq : Real.sqrt ((q.1 - p.1) ^ 2 + (q.2 - p.2) ^ 2) ^ 2 =
        (q.1 - p.1) ^ 2 + (q.2 - p.2) ^ 2 := Real.sq_sqrt harg
    have hpos : 0 < (q.1 - p.1) ^ 2 + (q.2 - p.2) ^ 2 := Real.sqrt_pos.mp h
    rw [div_pow, div_pow, div_add_div_same, hsq]
    exact div_self (ne_of_gt hpos)
  · rw [if_neg h]
    norm_num

/-- All segments of a path have unit directions. -/
lemma mkSegs_dir_unit (pts : List Vec2) :
    ∀ s ∈ mkSegs pts, s.dir.1 ^ 2 + s.dir.2 ^ 2 = 1 := by
  induction pts with
  | nil => simp [mkSegs]
  | cons p rest ih =>
    cases rest with
    | nil => simp [mkSegs]
    | cons q rest2 =>
      intro s hs
      rw [show mkSegs (p :: q :: rest2) = mkSeg p q :: mkSegs (q :: rest2) from rfl] at hs
      rcases List.mem_cons.mp hs with h | h
      · subst h; exact mkSeg_dir_unit p q
      · exact ih s h

lemma defaultSeg_dir_unit : defaultSeg.dir.1 ^ 2 + defaultSeg.dir.2 ^ 2 = 1 := by
  simp [defaultSeg]

/-- `getD` preserves a property holding on all members and on the default. -/
lemma getD_prop {P : Seg → Prop} (d : Seg) (hd : P d) :
    ∀ (l : List Seg) (i : ℕ), (∀ s ∈ l, P s) → P (l.getD i d) := by
  intro l
  induction l with
  | nil => intro i _; simpa [List.getD] using hd
  | cons s rest ih =>
    intro i hl
    cases i with
    | zero => simpa [List.getD] using hl s (List.mem_cons_self s rest)
    | succ j =>
      have he : (s :: rest).getD (j + 1) d = rest.getD j d := by simp [List.getD]
      rw [he]
      exact ih j (fun u hu => hl u (List.mem_cons_of_mem s hu))

/-- `headD` preserves a property holding on all members and on the default. -/
lemma headD_prop {P : Seg → Prop} (l : List Seg) (d : Seg)
    (hl : ∀ s ∈ l, P s) (hd : P d) : P (l.headD d) := by
  cases l with
  | nil => simpa using hd
  | cons s rest => simpa using hl s (List.mem_cons_self s rest)

/-- A path of `n` points yields `n - 1` segments. -/
lemma mkSegs_length (pts : List Vec2) : (mkSegs pts).length = pts.length - 1 := by
  induction pts with
  | nil => simp [mkSegs]
  | cons p rest ih =>
    cases rest with
    | nil => simp [mkSegs]
    | cons q rest2 =>
      rw [show mkSegs (p :: q :: rest2) = mkSeg p q :: mkSegs (q :: rest2) from rfl]
      simp only [List.length_cons] at ih ⊢
      omega

/-- The clamp of `segmentIndex` lands in the valid index range. -/
lemma clampSegIdx_lt (n : ℕ) (si : ℤ) (hn : 1 ≤ n) : clampSegIdx n si < n := by
  unfold clampSegIdx
  omega

/-- `resolveT` on an explicit `t` clamps it to `[0, 1]`. -/
lemma resolveT_some (v : ℝ) (snap : Option Snap) (si : Option ℤ)
    (off : Option EdgeLayoutOffset) :
    resolveT ⟨some v, snap, si, off⟩ = min 1 (max 0 v) := rfl

lemma resolveT_snap_start (si : Option ℤ) (off : Option EdgeLayoutOffset) :
    resolveT ⟨none, some Snap.start, si, off⟩ = 0 := rfl

lemma resolveT_snap_end (si : Option ℤ) (off : Option EdgeLayoutOffset) :
    resolveT ⟨none, some Snap.«end», si, off⟩ = 1 := rfl

lemma resolveT_t0 (snap : Option Snap) (si : Option ℤ) (off : Option EdgeLayoutOffset) :
    resolveT ⟨some 0, snap, si, off⟩ = 0 := by
  rw [resolveT_some]
  norm_num

lemma resolveT_t1 (snap : Option Snap) (si : Option ℤ) (off : Option EdgeLayoutOffset) :
    resolveT ⟨some 1, snap, si, off⟩ = 1 := by
  rw [resolveT_some]
  norm_num

/-- In every branch of `computeAnchorCore` the tangent is a unit vector and
the normal is the tangent rotated by 90 degrees. -/
lemma core_frame (points : List Vec2) (tval : ℝ) (si : Option ℤ)
    (off : Option EdgeLayoutOffset) :
    (computeAnchorCore points tval si off).tangent.1 ^ 2 +
      (computeAnchorCore points tval si off).tangent.2 ^ 2 = 1 ∧
    (computeAnchorCore points tval si off).normal =
      (-(computeAnchorCore points tval si off).tangent.2,
       (computeAnchorCore points tval si off).tangent.1) := by
  simp only [computeAnchorCore]
  by_cases h :
      segsTotal (mkSegs (if 2 ≤ points.length then points
        else [((0:ℝ), (0:ℝ)), (0, 0)])) = 0
  · rw [if_pos h]
    exact ⟨headD_prop (P := fun s => s.dir.1 ^ 2 + s.dir.2 ^ 2 = 1) _ _
      (mkSegs_dir_unit _) defaultSeg_dir_unit, rfl⟩
  · rw [if_neg h]
    exact ⟨getD_prop (P := fun s => s.dir.1 ^ 2 + s.dir.2 ^ 2 = 1) _
      defaultSeg_dir_unit _ _ (mkSegs_dir_unit _), rfl⟩

/-- Evaluation of `computeAnchorCore` in the forced-segment branch: when the
path is genuine (two or more points) and has nonzero total length, the
result interpolates on the clamped segment with local parameter
`(tval·total − lengthBefore) / segmentLength`, then applies the offset. -/
lemma core_forced_eval (points : List Vec2) (tval : ℝ) (si : ℤ)
    (off : Option EdgeLayoutOffset)
    (h2 : 2 ≤ points.length) (htot : segsTotal (mkSegs points) ≠ 0) :
    computeAnchorCore points tval (some si) off =
      (let seg := forcedSeg points si
       let acc := lenBefore points si
       let targetLen := tval * segsTotal (mkSegs points)
       let loc := if 0 < seg.len then (targetLen - acc) / seg.len else 0
       let along := match off with | some o => o.along.getD 0 | none => 0
       let nrm := match off with | some o => o.normal.getD 0 | none => 0
       ⟨seg.a.1 + (seg.b.1 - seg.a.1) * loc + seg.dir.1 * along + (-seg.dir.2) * nrm,
        seg.a.2 + (seg.b.2 - seg.a.2) * loc + seg.dir.2 * along + seg.dir.1 * nrm,
        seg.dir, (-seg.dir.2, seg.dir.1)⟩) := by
  simp only [computeAnchorCore, forcedSeg, forcedIdx, lenBefore]
  rw [if_pos h2, if_neg htot]

/-- A horizontal segment of positive extent has length `b - a` and direction
`(1, 0)`. -/
lemma mkSeg_horiz (a b c : ℝ) (h : a < b) :
    mkSeg (a, c) (b, c) = ⟨(a, c), (b, c), b - a, (1, 0)⟩ := by
  have hba : (0:ℝ) < b - a := by linarith
  have hs : Real.sqrt ((b - a) ^ 2 + (c - c) ^ 2) = b - a := by
    rw [show (c - c : ℝ) = 0 by ring]
    rw [show (b - a) ^ 2 + (0:ℝ) ^ 2 = (b - a) ^ 2 by ring]
    exact Real.sqrt_sq hba.le
  show Seg.mk (a, c) (b, c) (Real.sqrt ((b - a) ^ 2 + (c - c) ^ 2))
      (if 0 < Real.sqrt ((b - a) ^ 2 + (c - c) ^ 2)
       then ((b - a) / Real.sqrt ((b - a) ^ 2 + (c - c) ^ 2),
             (c - c) / Real.sqrt ((b - a) ^ 2 + (c - c) ^ 2))
       else (1, 0)) = _
  rw [hs, if_pos hba, show (c - c : ℝ) = 0 by ring]
  rw [div_self (ne_of_gt hba), zero_div]

/-- Segment decomposition of the concrete path `(0,0) — (1,0) — (2,0)`. -/
lemma segs_012 : mkSegs [((0:ℝ), (0:ℝ)), (1, 0), (2, 0)] =
    [⟨(0, 0), (1, 0), 1, (1, 0)⟩, ⟨(1, 0), (2, 0), 1, (1, 0)⟩] := by
  rw [show mkSegs [((0:ℝ), (0:ℝ)), (1, 0), (2, 0)] =
    mkSeg (0, 0) (1, 0) :: mkSegs [((1:ℝ), (0:ℝ)), (2, 0)] from rfl]
  rw [show mkSegs [((1:ℝ), (0:ℝ)), (2, 0)] =
    [mkSeg (1, 0) (2, 0)] from rfl]
  rw [mkSeg_horiz 0 1 0 (by norm_num), mkSeg_horiz 1 2 0 (by norm_num)]
  norm_num

/-- Total length of the concrete path. -/
lemma total_012 : segsTotal (mkSegs [((0:ℝ), (0:ℝ)), (1, 0), (2, 0)]) = 2 := by
  rw [segs_012]
  simp [segsTotal]
  norm_num

/-- The forced segment for `segmentIndex = 1` on the concrete path. -/
lemma forcedSeg_012 : forcedSeg [((0:ℝ), (0:ℝ)), (1, 0), (2, 0)] 1 =
    ⟨(1, 0), (2, 0), 1, (1, 0)⟩ := by
  rw [forcedSeg, forcedIdx, segs_012]
  rfl

/-- The accumulated length before the forced segment for `segmentIndex = 1`. -/
lemma lenBefore_012 : lenBefore [((0:ℝ), (0:ℝ)), (1, 0), (2, 0)] 1 = 1 := by
  rw [lenBefore, forcedIdx, segs_012]
  norm_num [clampSegIdx, segsTotal]

/-! ## Claim theorems -/

/-- C2 (counterexample): the Normal router on endpoints `(0,0)`–`(100,100)`
with no waypoints does not return the four-point orthogonal path the claim
states — it returns the endpoint list unchanged, which has two points. -/
theorem normalRouter_diagonal_not_four_points :
    NormalRouter.route [((0:ℝ), (0:ℝ)), (100, 100)] none ≠
      [((0:ℝ), (0:ℝ)), (50, 0), (50, 100), (100, 100)] := by
  intro h
  have hlen := congrArg List.length h
  simp only [NormalRouter.route, List.length_cons, List.length_nil] at hlen
  omega

/-- C2 (amended): the Normal router returns the two endpoints unchanged; the
four-point path `[[0,0],[50,0],[50,100],[100,100]]` is produced by the
Orthogonal router (and by the Manhattan router with step 10, the midpoint
being a multiple of 10). -/
theorem routers_on_diagonal :
    NormalRouter.route [((0:ℝ), (0:ℝ)), (100, 100)] none =
      [((0:ℝ), (0:ℝ)), (100, 100)] ∧
    OrthogonalRouter.route [((0:ℝ), (0:ℝ)), (100, 100)] none =
      [((0:ℝ), (0:ℝ)), (50, 0), (50, 100), (100, 100)] ∧
    ManhattanRouter.route ⟨some 10⟩ [((0:ℝ), (0:ℝ)), (100, 100)] none =
      [((0:ℝ), (0:ℝ)), (50, 0), (50, 100), (100, 100)] := by
  refine ⟨rfl, ?_, ?_⟩
  · norm_num [OrthogonalRouter.route, List.getD]
  · norm_num [ManhattanRouter.route, List.getD, jsOr]

/-- C6: the shape-anchor resolver is a total function — for every shape
descriptor (including unknown kinds) and every layout it returns a point —
and unknown kinds degrade to the local-bounds center when bounds are
available, otherwise to the node-style default center, for every address. -/
theorem anchor_shape_total_and_fallback :
    (∀ (shape : ShapeDesc) (layout : Option PortLayoutAny) (ns : NodeStyleNS),
      ∃ p : Vec2, computeAnchorForShape shape layout ns = p) ∧
    (∀ (layout : Option PortLayoutAny) (ns : NodeStyleNS) (b : GBounds),
      computeAnchorForShape (ShapeDesc.other (some b)) layout ns =
        ((b.min.1 + b.max.1) / 2, (b.min.2 + b.max.2) / 2)) ∧
    (∀ (layout : Option PortLayoutAny) (ns : NodeStyleNS),
      computeAnchorForShape (ShapeDesc.other none) layout ns =
        (jsOr ns.width 100 / 2, jsOr ns.height 40 / 2)) :=
  ⟨fun shape layout ns => ⟨computeAnchorForShape shape layout ns, rfl⟩,
   fun _ _ _ => rfl, fun _ _ => rfl⟩

/-- C10: `Graph.addEdge` throws exactly the error
`'Source or target node does not exist'` precisely when the source id or the
target id does not resolve to a node; in that case no edge value is produced
and the graph is left untouched (the error branch returns before the edge is
constructed or appended). -/
theorem addEdge_missing_endpoint_error (g : GraphRec) (d : EdgeData) :
    (g.getNodeById d.source = none ∨ g.getNodeById d.target = none) ↔
      Graph.addEdge g d = Except.error "Source or target node does not exist" := by
  unfold Graph.addEdge
  cases hs : g.getNodeById d.source <;> cases ht : g.getNodeById d.target <;> simp

/-- C4: the asynchronous pointer-down pick has no staleness check.  In the
event sequence "pointer-down issues an async pick, pointer-up arrives first
(there is no started gesture, so the machine treats the gesture as over),
then the pick resolves with an endpoint", the late resolution is not a
no-op: it sets the start endpoint, creates the virtual endpoint and appends
a temporary edge to the diagram. -/
theorem late_down_pick_not_noop :
    onPointerUp (⟨true, [], 0, none, none, none, none⟩ : PState) PickOutcome.notFound =
      (⟨true, [], 0, none, none, none, none⟩ : PState) ∧
    (resolveDownPick (fun _ => (0, 0))
      (onPointerUp (⟨true, [], 0, none, none, none, none⟩ : PState) PickOutcome.notFound)
      (some 7)).startEndpoint = some 7 ∧
    (resolveDownPick (fun _ => (0, 0))
      (onPointerUp (⟨true, [], 0, none, none, none, none⟩ : PState) PickOutcome.notFound)
      (some 7)).virtualTarget = some (0, 0) ∧
    (resolveDownPick (fun _ => (0, 0))
      (onPointerUp (⟨true, [], 0, none, none, none, none⟩ : PState) PickOutcome.notFound)
      (some 7)).edges = [(0, DEdge.temp 7)] :=
  ⟨rfl, rfl, rfl, rfl⟩

/-- C7: on an ellipse, an `Angle` address resolves to the closed-form point
`center + (rx·cos θ, ry·sin θ)`; on the ellipse with `rx = 50`, `ry = 30`
centered at the origin, angles 0°, −90°, 180° and 90° give `(50, 0)`,
`(0, −30)`, `(−50, 0)` and `(0, 30)`; and increasing any angle by 360°
returns the same point. -/
theorem ellipse_angle_closed_form :
    (∀ (st : EllipseStyle) (ns : NodeStyleNS) (a : ℝ),
      computeAnchorForShape (ShapeDesc.ellipse st) (some (PortLayoutAny.angle a)) ns =
        (st.cx.getD 0 +
           st.rx.getD (st.r.getD (ns.rx.getD (ns.r.getD 0))) * Real.cos (a * Real.pi / 180),
         st.cy.getD 0 + st.ry.getD (ns.ry.getD 0) * Real.sin (a * Real.pi / 180))) ∧
    computeAnchorForShape (ShapeDesc.ellipse ⟨some 0, some 0, some 50, none, some 30⟩)
      (some (PortLayoutAny.angle 0)) nsEmpty = (50, 0) ∧
    computeAnchorForShape (ShapeDesc.ellipse ⟨some 0, some 0, some 50, none, some 30⟩)
      (some (PortLayoutAny.angle (-90))) nsEmpty = (0, -30) ∧
    computeAnchorForShape (ShapeDesc.ellipse ⟨some 0, some 0, some 50, none, some 30⟩)
      (some (PortLayoutAny.angle 180)) nsEmpty = (-50, 0) ∧
    computeAnchorForShape (ShapeDesc.ellipse ⟨some 0, some 0, some 50, none, some 30⟩)
      (some (PortLayoutAny.angle 90)) nsEmpty = (0, 30) ∧
    (∀ (st : EllipseStyle) (ns : NodeStyleNS) (a : ℝ),
      computeAnchorForShape (ShapeDesc.ellipse st)
          (some (PortLayoutAny.angle (a + 360))) ns =
        computeAnchorForShape (ShapeDesc.ellipse st)
          (some (PortLayoutAny.angle a)) ns) := by
  refine ⟨fun st ns a => rfl, ?_, ?_, ?_, ?_, ?_⟩
  · simp only [computeAnchorForShape, nsEmpty, Option.getD_some]
    rw [show (0:ℝ) * Real.pi / 180 = 0 by ring, Real.cos_zero, Real.sin_zero]
    norm_num
  · simp only [computeAnchorForShape, nsEmpty, Option.getD_some]
    rw [show (-90:ℝ) * Real.pi / 180 = -(Real.pi / 2) by ring, Real.cos_neg,
      Real.sin_neg, Real.cos_pi_div_two, Real.sin_pi_div_two]
    norm_num
  · simp only [computeAnchorForShape, nsEmpty, Option.getD_some]
    rw [show (180:ℝ) * Real.pi / 180 = Real.pi by ring, Real.cos_pi, Real.sin_pi]
    norm_num
  · simp only [computeAnchorForShape, nsEmpty, Option.getD_some]
    rw [show (90:ℝ) * Real.pi / 180 = Real.pi / 2 by ring, Real.cos_pi_div_two,
      Real.sin_pi_div_two]
    norm_num
  · intro st ns a
    simp only [computeAnchorForShape]
    rw [show (a + 360) * Real.pi / 180 = a * Real.pi / 180 + 2 * Real.pi by ring,
      Real.cos_add_two_pi, Real.sin_add_two_pi]

/-- C3 (counterexample): for an ellipse owner with a preset address, the
position stored by `Port.updatePosition` is the untouched fallback `(0, 0)`,
while the shape-anchor resolver returns the boundary point `(0, −30)` — the
two disagree, refuting the claimed equality for every shape and address. -/
theorem port_update_ellipse_preset_mismatch :
    Port.updatePosition (ShapeDesc.ellipse ⟨some 0, some 0, some 50, none, some 30⟩)
        (PortLayoutAny.preset PresetSide.top) = (0, 0) ∧
    computeAnchorForShape (ShapeDesc.ellipse ⟨some 0, some 0, some 50, none, some 30⟩)
        (some (PortLayoutAny.preset PresetSide.top)) nsEmpty = (0, -30) ∧
    Port.updatePosition (ShapeDesc.ellipse ⟨some 0, some 0, some 50, none, some 30⟩)
        (PortLayoutAny.preset PresetSide.top) ≠
      computeAnchorForShape (ShapeDesc.ellipse ⟨some 0, some 0, some 50, none, some 30⟩)
        (some (PortLayoutAny.preset PresetSide.top)) nsEmpty := by
  have h1 : Port.updatePosition
      (ShapeDesc.ellipse ⟨some 0, some 0, some 50, none, some 30⟩)
      (PortLayoutAny.preset PresetSide.top) = ((0 : ℝ), (0 : ℝ)) := rfl
  have h2 : computeAnchorForShape
      (ShapeDesc.ellipse ⟨some 0, some 0, some 50, none, some 30⟩)
      (some (PortLayoutAny.preset PresetSide.top)) nsEmpty = ((0 : ℝ), (-30 : ℝ)) := by
    simp only [computeAnchorForShape, nsEmpty, Option.getD_some]
    norm_num
  refine ⟨h1, h2, ?_⟩
  rw [h1, h2]
  intro h
  have := congrArg Prod.snd h
  norm_num at this

/-- C3 (amended): the stored position agrees with the resolver exactly on the
combinations `Port.updatePosition` implements — rectangle owners with preset
addresses whose own style carries width and height, circle owners with
preset and angle addresses whose own style carries `r`, and absolute
addresses on rectangle, circle, ellipse and nonempty-polygon owners; the
remaining combinations fall back to `(0, 0)` (see the counterexample). -/
theorem port_update_matches_resolver_on_supported :
    (∀ (ox oy : Option ℝ) (w h : ℝ) (side : PresetSide) (ns : NodeStyleNS),
      Port.updatePosition (ShapeDesc.rect ⟨ox, oy, some w, some h⟩)
          (PortLayoutAny.preset side) =
        computeAnchorForShape (ShapeDesc.rect ⟨ox, oy, some w, some h⟩)
          (some (PortLayoutAny.preset side)) ns) ∧
    (∀ (ocx ocy : Option ℝ) (r : ℝ) (side : PresetSide) (ns : NodeStyleNS),
      Port.updatePosition (ShapeDesc.circle ⟨ocx, ocy, some r⟩)
          (PortLayoutAny.preset side) =
        computeAnchorForShape (ShapeDesc.circle ⟨ocx, ocy, some r⟩)
          (some (PortLayoutAny.preset side)) ns) ∧
    (∀ (ocx ocy : Option ℝ) (r a : ℝ) (ns : NodeStyleNS),
      Port.updatePosition (ShapeDesc.circle ⟨ocx, ocy, some r⟩)
          (PortLayoutAny.angle a) =
        computeAnchorForShape (ShapeDesc.circle ⟨ocx, ocy, some r⟩)
          (some (PortLayoutAny.angle a)) ns) ∧
    (∀ (st : RectStyle) (ax ay : ℝ) (ns : NodeStyleNS),
      Port.updatePosition (ShapeDesc.rect st) (PortLayoutAny.absolute ax ay) =
        computeAnchorForShape (ShapeDesc.rect st)
          (some (PortLayoutAny.absolute ax ay)) ns) ∧
    (∀ (st : CircleStyle) (ax ay : ℝ) (ns : NodeStyleNS),
      Port.updatePosition (ShapeDesc.circle st) (PortLayoutAny.absolute ax ay) =
        computeAnchorForShape (ShapeDesc.circle st)
          (some (PortLayoutAny.absolute ax ay)) ns) ∧
    (∀ (st : EllipseStyle) (ax ay : ℝ) (ns : NodeStyleNS),
      Port.updatePosition (ShapeDesc.ellipse st) (PortLayoutAny.absolute ax ay) =
        computeAnchorForShape (ShapeDesc.ellipse st)
          (some (PortLayoutAny.absolute ax ay)) ns) ∧
    (∀ (p : Vec2) (rest : List Vec2) (ax ay : ℝ) (ns : NodeStyleNS),
      Port.updatePosition (ShapeDesc.polygon (p :: rest))
          (PortLayoutAny.absolute ax ay) =
        computeAnchorForShape (ShapeDesc.polygon (p :: rest))
          (some (PortLayoutAny.absolute ax ay)) ns) := by
  refine ⟨?_, ?_, ?_, ?_, ?_, ?_, ?_⟩
  · intro ox oy w h side ns
    cases side <;>
      simp [Port.updatePosition, computeAnchorForShape, jsOr_zero]
  · intro ocx ocy r side ns
    cases side <;>
      simp [Port.updatePosition, computeAnchorForShape, jsOr_zero]
  · intro ocx ocy r a ns
    simp [Port.updatePosition, computeAnchorForShape, jsOr_zero]
  · intro st ax ay ns
    rfl
  · intro st ax ay ns
    rfl
  · intro st ax ay ns
    rfl
  · intro p rest ax ay ns
    simp only [Port.updatePosition, computeAnchorForShape]
    rw [if_neg (by simp : ¬ (p :: rest).length = 0)]

/-- C8: for every path and every path-position address, the anchor's tangent
is unit-length, its normal is the tangent rotated by 90°
(`normal = (−tangent.y, tangent.x)`), and hence the normal is unit-length as
well — including for degenerate zero-length paths. -/
theorem anchor_tangent_normal_unit (points : List Vec2) (opts : EdgeLayoutOptions) :
    (computeAnchor points opts).tangent.1 ^ 2 +
      (computeAnchor points opts).tangent.2 ^ 2 = 1 ∧
    (computeAnchor points opts).normal =
      (-(computeAnchor points opts).tangent.2, (computeAnchor points opts).tangent.1) ∧
    (computeAnchor points opts).normal.1 ^ 2 +
      (computeAnchor points opts).normal.2 ^ 2 = 1 := by
  obtain ⟨h1, h2⟩ := core_frame points (resolveT opts) opts.segmentIndex opts.offset
  refine ⟨h1, h2, ?_⟩
  unfold computeAnchor
  rw [h2]
  simp only [neg_sq]
  linarith [h1]

/-- C9: on any path with at least two points, an address with `t = 0` resolves
to the same anchor as `snap = 'start'`, and `t = 1` to the same anchor as
`snap = 'end'`. -/
theorem t_snap_endpoints_agree (points : List Vec2) (h : 2 ≤ points.length) :
    computeAnchor points ⟨some 0, none, none, none⟩ =
      computeAnchor points ⟨none, some Snap.start, none, none⟩ ∧
    computeAnchor points ⟨some 1, none, none, none⟩ =
      computeAnchor points ⟨none, some Snap.«end», none, none⟩ := by
  constructor
  · unfold computeAnchor
    rw [resolveT_t0, resolveT_snap_start]
  · unfold computeAnchor
    rw [resolveT_t1, resolveT_snap_end]

/-- Witness for C9 at the concrete path `(0,0) — (1,1)`. -/
theorem t_snap_endpoints_agree_witness :
    2 ≤ ([((0:ℝ), (0:ℝ)), (1, 1)] : List Vec2).length ∧
    (computeAnchor [((0:ℝ), (0:ℝ)), (1, 1)] ⟨some 0, none, none, none⟩ =
       computeAnchor [((0:ℝ), (0:ℝ)), (1, 1)] ⟨none, some Snap.start, none, none⟩ ∧
     computeAnchor [((0:ℝ), (0:ℝ)), (1, 1)] ⟨some 1, none, none, none⟩ =
       computeAnchor [((0:ℝ), (0:ℝ)), (1, 1)] ⟨none, some Snap.«end», none, none⟩) :=
  ⟨by norm_num, t_snap_endpoints_agree [((0:ℝ), (0:ℝ)), (1, 1)] (by norm_num)⟩

/-- `permCount` of a cons: one more for a permanent head, unchanged
otherwise. -/
lemma permCount_cons (k : ℕ) (e : DEdge) (l : List (ℕ × DEdge)) :
    permCount ((k, e) :: l) =
      (match e with | DEdge.perm _ _ => 1 | _ => 0) + permCount l := by
  cases e with
  | temp s => simp [permCount, List.filter_cons]
  | perm s t => simp [permCount, List.filter_cons, Nat.add_comm]

/-- Removing entries keyed by the temporary edge's token does not change the
permanent-edge count, as long as that token only keys temporary edges. -/
lemma permCount_filter_tempKey (tid : ℕ) :
    ∀ (l : List (ℕ × DEdge)),
      (∀ p ∈ l, p.1 = tid → ∃ ep, p.2 = DEdge.temp ep) →
      permCount (l.filter (fun p => p.1 ≠ tid)) = permCount l := by
  intro l
  induction l with
  | nil => intro _; rfl
  | cons p rest ih =>
    intro hl
    obtain ⟨k, e⟩ := p
    have hrec := ih (fun q hq => hl q (List.mem_cons_of_mem _ hq))
    by_cases hk : k = tid
    · obtain ⟨ep, hep⟩ := hl (k, e) (List.mem_cons_self _ rest) hk
      simp only at hep
      subst hep
      have h1 : ((k, DEdge.temp ep) :: rest).filter (fun q => q.1 ≠ tid) =
          rest.filter (fun q => q.1 ≠ tid) := by
        rw [List.filter_cons]
        simp [hk]
      rw [h1, permCount_cons]
      simpa using hrec
    · have h1 : ((k, e) :: rest).filter (fun q => q.1 ≠ tid) =
          (k, e) :: rest.filter (fun q => q.1 ≠ tid) := by
        rw [List.filter_cons]
        simp [hk]
      rw [h1, permCount_cons, permCount_cons, hrec]

/-- C5: whenever pointer-up fails to produce a valid distinct endpoint — no
endpoint found, same endpoint as the start, or an exception while locating
the endpoint (caught inside the picker, which then reports no endpoint) —
the permanent-edge count of the diagram is unchanged, the temporary edge's
token is gone from the diagram, and every transient gesture field is
cleared. -/
theorem pointer_up_failure_cleanup (s : PState) (se : Endpoint)
    (outcome : PickOutcome)
    (hstart : s.startEndpoint = some se)
    (hattached : s.graphAttached = true)
    (htemp : ∀ p ∈ s.edges, s.tempEdge = some p.1 → ∃ ep, p.2 = DEdge.temp ep)
    (hfail : pickResult outcome = none ∨ pickResult outcome = some se) :
    permCount (onPointerUp s outcome).edges = permCount s.edges ∧
    (∀ tid, s.tempEdge = some tid →
      ∀ p ∈ (onPointerUp s outcome).edges, p.1 ≠ tid) ∧
    (onPointerUp s outcome).tempEdge = none ∧
    (onPointerUp s outcome).virtualTarget = none ∧
    (onPointerUp s outcome).startEndpoint = none ∧
    (onPointerUp s outcome).startPos = none := by
  have hclean : onPointerUp s outcome = cleanupTemp s := by
    unfold onPointerUp
    rw [hstart]
    rcases hfail with hf | hf
    · rw [hf]
    · rw [hf]
      simp
  rw [hclean]
  refine ⟨?_, ?_, rfl, rfl, rfl, rfl⟩
  · show permCount (cleanupTemp s).edges = permCount s.edges
    cases htid : s.tempEdge with
    | none =>
      have he : (cleanupTemp s).edges = s.edges := by
        unfold cleanupTemp
        simp only [htid]
      rw [he]
    | some tid =>
      have he : (cleanupTemp s).edges = s.edges.filter (fun q => q.1 ≠ tid) := by
        unfold cleanupTemp
        simp only [htid]
        rw [if_pos hattached]
      rw [he]
      exact permCount_filter_tempKey tid s.edges
        (fun p hp hptid => htemp p hp (by rw [htid, hptid]))
  · intro tid htid p hp
    have he : (cleanupTemp s).edges = s.edges.filter (fun q => q.1 ≠ tid) := by
      unfold cleanupTemp
      simp only [htid]
      rw [if_pos hattached]
    rw [he] at hp
    have := List.of_mem_filter hp
    simpa using this

/-- Witness for C5: a live gesture whose temporary edge is the diagram's only
edge, released over empty space. -/
theorem pointer_up_failure_cleanup_witness :
    ((⟨true, [(0, DEdge.temp 1)], 1, some 1, some (0, 0), some 0,
        some (0, 0)⟩ : PState).startEndpoint = some 1) ∧
    ((⟨true, [(0, DEdge.temp 1)], 1, some 1, some (0, 0), some 0,
        some (0, 0)⟩ : PState).graphAttached = true) ∧
    (pickResult PickOutcome.notFound = none ∨
      pickResult PickOutcome.notFound = some 1) ∧
    (permCount (onPointerUp (⟨true, [(0, DEdge.temp 1)], 1, some 1, some (0, 0),
        some 0, some (0, 0)⟩ : PState) PickOutcome.notFound).edges =
      permCount [(0, DEdge.temp 1)] ∧
     (∀ tid, (⟨true, [(0, DEdge.temp 1)], 1, some 1, some (0, 0), some 0,
        some (0, 0)⟩ : PState).tempEdge = some tid →
        ∀ p ∈ (onPointerUp (⟨true, [(0, DEdge.temp 1)], 1, some 1, some (0, 0),
          some 0, some (0, 0)⟩ : PState) PickOutcome.notFound).edges, p.1 ≠ tid) ∧
     (onPointerUp (⟨true, [(0, DEdge.temp 1)], 1, some 1, some (0, 0), some 0,
        some (0, 0)⟩ : PState) PickOutcome.notFound).tempEdge = none ∧
     (onPointerUp (⟨true, [(0, DEdge.temp 1)], 1, some 1, some (0, 0), some 0,
        some (0, 0)⟩ : PState) PickOutcome.notFound).virtualTarget = none ∧
     (onPointerUp (⟨true, [(0, DEdge.temp 1)], 1, some 1, some (0, 0), some 0,
        some (0, 0)⟩ : PState) PickOutcome.notFound).startEndpoint = none ∧
     (onPointerUp (⟨true, [(0, DEdge.temp 1)], 1, some 1, some (0, 0), some 0,
        some (0, 0)⟩ : PState) PickOutcome.notFound).startPos = none) :=
  ⟨rfl, rfl, Or.inl rfl,
   pointer_up_failure_cleanup _ 1 PickOutcome.notFound rfl rfl
     (by
       intro p hp h
       have hp' : p = (0, DEdge.temp 1) := by simpa using hp
       exact ⟨1, by rw [hp']⟩)
     (Or.inl rfl)⟩

/-- Zeta-reduced form of the forced-segment branch with no offset. -/
lemma core_forced_none_eval (points : List Vec2) (tval : ℝ) (si : ℤ)
    (h2 : 2 ≤ points.length) (htot : segsTotal (mkSegs points) ≠ 0) :
    computeAnchorCore points tval (some si) none =
      ⟨(forcedSeg points si).a.1 +
          ((forcedSeg points si).b.1 - (forcedSeg points si).a.1) *
            (if 0 < (forcedSeg points si).len
             then (tval * segsTotal (mkSegs points) - lenBefore points si) /
               (forcedSeg points si).len
             else 0),
       (forcedSeg points si).a.2 +
          ((forcedSeg points si).b.2 - (forcedSeg points si).a.2) *
            (if 0 < (forcedSeg points si).len
             then (tval * segsTotal (mkSegs points) - lenBefore points si) /
               (forcedSeg points si).len
             else 0),
       (forcedSeg points si).dir,
       (-(forcedSeg points si).dir.2, (forcedSeg points si).dir.1)⟩ := by
  rw [core_forced_eval points tval si none h2 htot]
  show EdgeAnchor.mk
      ((forcedSeg points si).a.1 +
        ((forcedSeg points si).b.1 - (forcedSeg points si).a.1) *
          (if 0 < (forcedSeg points si).len
           then (tval * segsTotal (mkSegs points) - lenBefore points si) /
             (forcedSeg points si).len
           else 0) +
        (forcedSeg points si).dir.1 * 0 + -(forcedSeg points si).dir.2 * 0)
      ((forcedSeg points si).a.2 +
        ((forcedSeg points si).b.2 - (forcedSeg points si).a.2) *
          (if 0 < (forcedSeg points si).len
           then (tval * segsTotal (mkSegs points) - lenBefore points si) /
             (forcedSeg points si).len
           else 0) +
        (forcedSeg points si).dir.2 * 0 + (forcedSeg points si).dir.1 * 0)
      (forcedSeg points si).dir
      (-(forcedSeg points si).dir.2, (forcedSeg points si).dir.1) = _
  rw [EdgeAnchor.mk.injEq]
  exact ⟨by ring, by ring, rfl, rfl⟩

/-- `x`-projection of the previous lemma. -/
lemma core_forced_none_x (points : List Vec2) (tval : ℝ) (si : ℤ)
    (h2 : 2 ≤ points.length) (htot : segsTotal (mkSegs points) ≠ 0) :
    (computeAnchorCore points tval (some si) none).x =
      (forcedSeg points si).a.1 +
        ((forcedSeg points si).b.1 - (forcedSeg points si).a.1) *
          (if 0 < (forcedSeg points si).len
           then (tval * segsTotal (mkSegs points) - lenBefore points si) /
             (forcedSeg points si).len
           else 0) := by
  rw [core_forced_none_eval points tval si h2 htot]

/-- `y`-projection of the forced-segment evaluation. -/
lemma core_forced_none_y (points : List Vec2) (tval : ℝ) (si : ℤ)
    (h2 : 2 ≤ points.length) (htot : segsTotal (mkSegs points) ≠ 0) :
    (computeAnchorCore points tval (some si) none).y =
      (forcedSeg points si).a.2 +
        ((forcedSeg points si).b.2 - (forcedSeg points si).a.2) *
          (if 0 < (forcedSeg points si).len
           then (tval * segsTotal (mkSegs points) - lenBefore points si) /
             (forcedSeg points si).len
           else 0) := by
  rw [core_forced_none_eval points tval si h2 htot]

/-- C1 (counterexample): on the path `(0,0) — (1,0) — (2,0)` with
`segmentIndex = 1` and `t = 0`, the forced segment runs from `(1,0)` to
`(2,0)`, yet the returned base point has `x = 0` — it does not lie on the
forced segment, refuting "the base point lies on the forced segment for
every `t` in `[0,1]`". -/
theorem anchor_forced_segment_offside :
    (computeAnchor [((0:ℝ), (0:ℝ)), (1, 0), (2, 0)]
        ⟨some 0, none, some 1, none⟩).x = 0 ∧
    forcedSeg [((0:ℝ), (0:ℝ)), (1, 0), (2, 0)] 1 = ⟨(1, 0), (2, 0), 1, (1, 0)⟩ ∧
    ¬ (1 ≤ (computeAnchor [((0:ℝ), (0:ℝ)), (1, 0), (2, 0)]
        ⟨some 0, none, some 1, none⟩).x) := by
  have h2 : 2 ≤ ([((0:ℝ), (0:ℝ)), (1, 0), (2, 0)] : List Vec2).length := by norm_num
  have htot : segsTotal (mkSegs [((0:ℝ), (0:ℝ)), (1, 0), (2, 0)]) ≠ 0 := by
    rw [total_012]
    norm_num
  have hx : (computeAnchor [((0:ℝ), (0:ℝ)), (1, 0), (2, 0)]
      ⟨some 0, none, some 1, none⟩).x = 0 := by
    show (computeAnchorCore [((0:ℝ), (0:ℝ)), (1, 0), (2, 0)]
      (resolveT ⟨some 0, none, some 1, none⟩) (some 1) none).x = 0
    rw [resolveT_t0, core_forced_none_x _ _ _ h2 htot, forcedSeg_012, lenBefore_012,
      total_012]
    norm_num
  exact ⟨hx, forcedSeg_012, by rw [hx]; norm_num⟩

/-- C1 (amended): `computeAnchor` clamps `segmentIndex` into the valid index
range and forces that segment, but `t` still addresses the arclength
position `t·totalLength` measured along the whole path; the base point is
the linear interpolation on the forced segment's line at local parameter
`(t·totalLength − lengthBefore)/segmentLength`, so it lies on the forced
segment exactly when that arclength position falls within the segment's
span — not for every `t` in `[0,1]`. -/
theorem anchor_segmentIndex_clamped_on_segment (points : List Vec2) (tval : ℝ) (si : ℤ)
    (h2 : 2 ≤ points.length)
    (htot : segsTotal (mkSegs points) ≠ 0)
    (ht0 : 0 ≤ tval) (ht1 : tval ≤ 1)
    (hlen : 0 < (forcedSeg points si).len)
    (hlo : lenBefore points si ≤ tval * segsTotal (mkSegs points))
    (hhi : tval * segsTotal (mkSegs points) ≤
      lenBefore points si + (forcedSeg points si).len) :
    forcedIdx points si < (mkSegs points).length ∧
    ∃ μ : ℝ, 0 ≤ μ ∧ μ ≤ 1 ∧
      (computeAnchor points ⟨some tval, none, some si, none⟩).x =
        (forcedSeg points si).a.1 +
          ((forcedSeg points si).b.1 - (forcedSeg points si).a.1) * μ ∧
      (computeAnchor points ⟨some tval, none, some si, none⟩).y =
        (forcedSeg points si).a.2 +
          ((forcedSeg points si).b.2 - (forcedSeg points si).a.2) * μ := by
  have hn : 1 ≤ (mkSegs points).length := by
    rw [mkSegs_length]
    omega
  refine ⟨clampSegIdx_lt _ _ hn, ?_⟩
  have hres : resolveT ⟨some tval, none, some si, none⟩ = tval := by
    rw [resolveT_some, max_eq_right ht0, min_eq_right ht1]
  refine ⟨(tval * segsTotal (mkSegs points) - lenBefore points si) /
      (forcedSeg points si).len, ?_, ?_, ?_, ?_⟩
  · exact div_nonneg (by linarith) hlen.le
  · rw [div_le_one hlen]
    linarith
  · show (computeAnchorCore points (resolveT ⟨some tval, none, some si, none⟩)
      (some si) none).x = _
    rw [hres, core_forced_none_x _ _ _ h2 htot, if_pos hlen]
  · show (computeAnchorCore points (resolveT ⟨some tval, none, some si, none⟩)
      (some si) none).y = _
    rw [hres, core_forced_none_y _ _ _ h2 htot, if_pos hlen]

/-- Witness for the amended C1: path `(0,0) — (1,0) — (2,0)`,
`segmentIndex = 1`, `t = 3/4` (arclength 1.5, inside the forced segment). -/
theorem anchor_segmentIndex_clamped_on_segment_witness :
    (2 ≤ ([((0:ℝ), (0:ℝ)), (1, 0), (2, 0)] : List Vec2).length) ∧
    (segsTotal (mkSegs [((0:ℝ), (0:ℝ)), (1, 0), (2, 0)]) ≠ 0) ∧
    ((0:ℝ) ≤ 3/4) ∧ ((3/4 : ℝ) ≤ 1) ∧
    (0 < (forcedSeg [((0:ℝ), (0:ℝ)), (1, 0), (2, 0)] 1).len) ∧
    (lenBefore [((0:ℝ), (0:ℝ)), (1, 0), (2, 0)] 1 ≤
      (3/4 : ℝ) * segsTotal (mkSegs [((0:ℝ), (0:ℝ)), (1, 0), (2, 0)])) ∧
    ((3/4 : ℝ) * segsTotal (mkSegs [((0:ℝ), (0:ℝ)), (1, 0), (2, 0)]) ≤
      lenBefore [((0:ℝ), (0:ℝ)), (1, 0), (2, 0)] 1 +
        (forcedSeg [((0:ℝ), (0:ℝ)), (1, 0), (2, 0)] 1).len) ∧
    (forcedIdx [((0:ℝ), (0:ℝ)), (1, 0), (2, 0)] 1 <
        (mkSegs [((0:ℝ), (0:ℝ)), (1, 0), (2, 0)]).length ∧
      ∃ μ : ℝ, 0 ≤ μ ∧ μ ≤ 1 ∧
        (computeAnchor [((0:ℝ), (0:ℝ)), (1, 0), (2, 0)]
            ⟨some (3/4), none, some 1, none⟩).x =
          (forcedSeg [((0:ℝ), (0:ℝ)), (1, 0), (2, 0)] 1).a.1 +
            ((forcedSeg [((0:ℝ), (0:ℝ)), (1, 0), (2, 0)] 1).b.1 -
              (forcedSeg [((0:ℝ), (0:ℝ)), (1, 0), (2, 0)] 1).a.1) * μ ∧
        (computeAnchor [((0:ℝ), (0:ℝ)), (1, 0), (2, 0)]
            ⟨some (3/4), none, some 1, none⟩).y =
          (forcedSeg [((0:ℝ), (0:ℝ)), (1, 0), (2, 0)] 1).a.2 +
            ((forcedSeg [((0:ℝ), (0:ℝ)), (1, 0), (2, 0)] 1).b.2 -
              (forcedSeg [((0:ℝ), (0:ℝ)), (1, 0), (2, 0)] 1).a.2) * μ) :=
  ⟨by norm_num,
   by rw [total_012]; norm_num,
   by norm_num,
   by norm_num,
   by rw [forcedSeg_012]; norm_num,
   by rw [lenBefore_012, total_012]; norm_num,
   by rw [lenBefore_012, total_012, forcedSeg_012]; norm_num,
   anchor_segmentIndex_clamped_on_segment [((0:ℝ), (0:ℝ)), (1, 0), (2, 0)] (3/4) 1
     (by norm_num)
     (by rw [total_012]; norm_num)
     (by norm_num)
     (by norm_num)
     (by rw [forcedSeg_012]; norm_num)
     (by rw [lenBefore_012, total_012]; norm_num)
     (by rw [lenBefore_012, total_012, forcedSeg_012]; norm_num)⟩

end GE
